import Mathlib

/-!
Shallow embedding of `src/simrupt.c` (the kmldrv kernel module): a periodic
timer simulates a hard IRQ, a tasklet dispatches deferred work items, work
items advance a tic-tac-toe board and export rendered snapshots through a
bounded kfifo to a character-device reader.

Kernel primitives (kfifo, snprintf, atomics, timers) are embedded by their
documented semantics; the module's own logic is translated line by line from
the C source.  Loops are embedded with a fuel argument that strictly exceeds
the loop's iteration bound while the real loop condition stays in the guard,
so every definition is executable.
-/

namespace KMLdrv

/-- Modelled from the spec: `game.h` is not under `src/`.  The spec fixes a
9-cell board (3×3), so `BOARD_SIZE = 3`. -/
abbrev BOARD_SIZE : Nat := 3

/-- Modelled from the spec: `N_GRIDS` is the cell count of the 3×3 board. -/
abbrev N_GRIDS : Nat := BOARD_SIZE * BOARD_SIZE

/-- Modelled from the spec: `DRAWBUFFER_SIZE` (from the missing `game.h`) is
the constant snapshot size.  `draw_board`'s loop emits 12-byte row blocks
after 2 leading newlines and stops at block boundaries when the index reaches
`DRAWBUFFER_SIZE`; 38 = 2 + 3·12 is the only value at which the loop consumes
all nine cells and ends exactly at the declared buffer size. -/
abbrev DRAWBUFFER_SIZE : Nat := 38

/-- Kernel constant: `kfifo_alloc(&rx_fifo, PAGE_SIZE, ...)` allocates a
fifo of PAGE_SIZE = 4096 bytes (already a power of two, so not rounded). -/
abbrev PAGE_SIZE : Nat := 4096

/-- The eight three-in-a-row lines of the 3×3 board. -/
def win_lines : List (List Nat) :=
  [[0, 1, 2], [3, 4, 5], [6, 7, 8],
   [0, 3, 6], [1, 4, 7], [2, 5, 8],
   [0, 4, 8], [2, 4, 6]]

/-- Does mark `c` occupy some full line of `t`? -/
def win_for (t : List Char) (c : Char) : Bool :=
  win_lines.any (fun l => l.all (fun i => t.getD i ' ' == c))

/-- Modelled from the spec: `check_win` lives in the missing `game.c`.  Per
the spec's board invariant, exactly one of \x7bno winner yet, side-A winning
line, side-B winning line, full board with no winner\x7d holds; `check_win`
reports the winning mark, `D` for a full drawn board, and a space for a game
still in progress. -/
def check_win (t : List Char) : Char :=
  if win_for t 'O' then 'O'
  else if win_for t 'X' then 'X'
  else if t.all (fun c => !(c == ' ')) then 'D'
  else ' '

/-- The module's global mutable state: the board `table`, the turn and
move-pending flag, the three sysfs attribute characters, the kfifo contents,
the draw buffer, the fast circular buffer indices, the open count and whether
the periodic timer is armed. -/
structure KmldrvState where
  table : List Char
  turn : Char
  finish : Bool
  display : Char
  resume : Char
  endf : Char
  rx_fifo : List Char
  draw_buffer : List Char
  fast_head : Nat
  fast_tail : Nat
  open_cnt : Int
  timer_armed : Bool
deriving Repr, DecidableEq

/-- State after `kmldrv_init`: board memset to spaces, `turn = 'O'`,
`finish = 1`, attributes `display = '1'`, `resume = '1'`, `end = '0'`, empty
fifo, zeroed static buffers, `open_cnt = 0`, timer set up but not armed. -/
def initState : KmldrvState where
  table := List.replicate N_GRIDS ' '
  turn := 'O'
  finish := true
  display := '1'
  resume := '1'
  endf := '0'
  rx_fifo := []
  draw_buffer := List.replicate DRAWBUFFER_SIZE (Char.ofNat 0)
  fast_head := 0
  fast_tail := 0
  open_cnt := 0
  timer_armed := false

/-- Kernel `kfifo_in(fifo, buf, n)`: copies `min n (capacity - used)`
elements into the fifo and returns the new contents and the number copied. -/
def kfifo_in (fifo data : List Char) (cap : Nat) : List Char × Nat :=
  let l := min data.length (cap - fifo.length)
  (fifo ++ data.take l, l)

/-- `produce_board`: pushes the whole `draw_buffer` into `rx_fifo` with
`kfifo_in`; result is the new fifo, the byte count inserted, and whether the
`len < sizeof(draw_buffer)` rate-limited warning condition fired. -/
def produce_board (fifo draw : List Char) : List Char × Nat × Bool :=
  let r := kfifo_in fifo draw PAGE_SIZE
  (r.1, r.2, decide (r.2 < draw.length))

/-- Inner `for` loop of `draw_board`: for `j` while
`j < (BOARD_SIZE << 1) - 1 && k < N_GRIDS`, emit `'|'` at odd `j` and the
next cell `table[k++]` at even `j`.  The fuel argument only bounds the
recursion; the real loop condition is the guard, and the initial fuel
`(BOARD_SIZE << 1) - 1` covers every iteration since `j` increments once per
step. -/
def cellsRow (table : List Char) (j k : Nat) : Nat → List Char × Nat
  | 0 => ([], k)
  | fuel + 1 =>
    if j < 2 * BOARD_SIZE - 1 ∧ k < N_GRIDS then
      if j % 2 = 1 then
        let r := cellsRow table (j + 1) k fuel
        ('|' :: r.1, r.2)
      else
        let r := cellsRow table (j + 1) (k + 1) fuel
        (table.getD k ' ' :: r.1, r.2)
    else ([], k)

/-- Outer `while (i < DRAWBUFFER_SIZE)` loop of `draw_board`: each iteration
emits a cell row, a newline, `(BOARD_SIZE << 1) - 1` dashes and a newline,
advancing `i` by the number of bytes emitted.  Fuel bounds the recursion
(each iteration advances `i` by at least 7, so `DRAWBUFFER_SIZE` iterations
are ample); the guard is the real loop condition. -/
def drawLoop (table : List Char) (i k : Nat) : Nat → List Char
  | 0 => []
  | fuel + 1 =>
    if i < DRAWBUFFER_SIZE then
      let row := cellsRow table 0 k (2 * BOARD_SIZE - 1)
      let block := row.1 ++ '\n' :: (List.replicate (2 * BOARD_SIZE - 1) '-' ++ ['\n'])
      block ++ drawLoop table (i + block.length) row.2 fuel
    else []

/-- `draw_board`: two leading newlines, then the row blocks. -/
def draw_board (table : List Char) : List Char :=
  '\n' :: '\n' :: drawLoop table 2 0 DRAWBUFFER_SIZE

/-- Grid reader for the snapshot layout: cell `k` of the board sits at byte
`2 + 12·(k / 3) + 2·(k % 3)` of the snapshot (2 leading newlines, 12-byte row
blocks, cells two bytes apart inside a row). -/
def cellIndex (k : Nat) : Nat := 2 + 12 * (k / 3) + 2 * (k % 3)

/-- Parse the nine cells back out of a rendered snapshot. -/
def parseBoard (buf : List Char) : List Char :=
  (List.range N_GRIDS).map (fun k => buf.getD (cellIndex k) ' ')

/-- `fast_buf_clear`: resets the circular buffer indices. -/
def fast_buf_clear (s : KmldrvState) : KmldrvState :=
  { s with fast_head := 0, fast_tail := 0 }

/-- `drawboard_work_func`: returns immediately when `display == '0'`;
otherwise renders the board into `draw_buffer` under the producer lock and
pushes it into the fifo with `produce_board` under the consumer lock. -/
def drawboard_work_func (s : KmldrvState) : KmldrvState :=
  if s.display = '0' then s
  else
    let db := draw_board s.table
    let r := produce_board s.rx_fifo db
    { s with draw_buffer := db, rx_fifo := r.1 }

/-- `ai_one_work_func` with the value `move` returned by `mcts(table, 'O')`
(the MCTS engine is external): writes `'O'` at `move` unless `move = -1`,
then sets `turn = 'X'` and `finish = 1`. -/
def ai_one_work_func (s : KmldrvState) (move : Int) : KmldrvState :=
  let table := if move ≠ -1 then s.table.set move.toNat 'O' else s.table
  { s with table := table, turn := 'X', finish := true }

/-- `ai_two_work_func` with the value `move` returned by
`negamax_predict(table, 'X').move` (the negamax engine is external): writes
`'X'` at `move` unless `move = -1`, then sets `turn = 'O'` and
`finish = 1`. -/
def ai_two_work_func (s : KmldrvState) (move : Int) : KmldrvState :=
  let table := if move ≠ -1 then s.table.set move.toNat 'X' else s.table
  { s with table := table, turn := 'O', finish := true }

/-- The four work items the tasklet can queue on `kmldrv_workqueue`. -/
inductive Work
  | ai_one
  | ai_two
  | load
  | drawboard
deriving Repr, DecidableEq

/-- `game_tasklet_func`: reads `finish` and `turn`; when a move is pending it
clears `finish` and queues the mover's work item; it always also queues
`mcts_calc_load_work` and `drawboard_work`, in source order. -/
def game_tasklet_func (s : KmldrvState) : KmldrvState × List Work :=
  if s.finish = true ∧ s.turn = 'O' then
    ({ s with finish := false }, [Work.ai_one, Work.load, Work.drawboard])
  else if s.finish = true ∧ s.turn = 'X' then
    ({ s with finish := false }, [Work.ai_two, Work.load, Work.drawboard])
  else
    (s, [Work.load, Work.drawboard])

/-- Effects of one `timer_handler` fire: the new state, whether the game
tasklet was scheduled (`ai_game`), and whether the final board was drawn and
exported. -/
structure TimerEffect where
  state : KmldrvState
  tasklet_scheduled : Bool
  final_draw : Bool
deriving Repr, DecidableEq

/-- `timer_handler`: the one-shot timer has fired (so it is disarmed on
entry); when `check_win` sees no terminal state it schedules the tasklet and
re-arms with `mod_timer`; on a terminal board it draws and exports a final
snapshot when `display == '1'`, and when `end == '0'` memsets the board back
to spaces and re-arms, otherwise leaves the timer disarmed. -/
def timer_handler (s : KmldrvState) : TimerEffect :=
  let s0 := { s with timer_armed := false }
  let win := check_win s0.table
  if win = ' ' then
    ⟨{ s0 with timer_armed := true }, true, false⟩
  else
    let drew := s0.display = '1'
    let s1 :=
      if s0.display = '1' then
        let db := draw_board s0.table
        let r := produce_board s0.rx_fifo db
        { s0 with draw_buffer := db, rx_fifo := r.1 }
      else s0
    let s2 :=
      if s1.endf = '0' then
        { s1 with table := List.replicate N_GRIDS ' ', timer_armed := true }
      else s1
    ⟨s2, false, decide drew⟩

/-- Result of `kmldrv_read` as seen by the caller: a positive byte count, or
`-EAGAIN`, or `-ERESTARTSYS`; `pending` marks a blocking read still asleep
when the modelled event schedule runs out. -/
inductive ReadResult
  | ok (n : Nat)
  | eagain
  | erestartsys
  | pending
deriving Repr, DecidableEq

/-- Environment events a blocked reader can observe: an interrupting signal,
or a producer pushing `data` into the fifo and waking `rx_wait`. -/
inductive WaitEvent
  | signal
  | wake (data : List Char)
deriving Repr, DecidableEq

/-- The `do/while (ret == 0)` loop of `kmldrv_read`: `kfifo_to_user` copies
`min count len` bytes (user copy assumed to succeed, as `access_ok` already
passed); a positive copy returns it; with `O_NONBLOCK` an empty fifo returns
`-EAGAIN`; otherwise `wait_event_interruptible` sleeps until the next event:
a signal returns `-ERESTARTSYS`, a wake retries the loop on the grown
fifo. -/
def readLoop (count : Nat) (nonblock : Bool) : List Char → List WaitEvent → ReadResult × List Char
  | fifo, events =>
    let n := min count fifo.length
    if 0 < n then (ReadResult.ok n, fifo.drop n)
    else if nonblock then (ReadResult.eagain, fifo)
    else
      match events with
      | [] => (ReadResult.pending, fifo)
      | WaitEvent.signal :: _ => (ReadResult.erestartsys, fifo)
      | WaitEvent.wake d :: rest => readLoop count nonblock (fifo ++ d) rest

/-- `kmldrv_read`: `mutex_lock_interruptible(&read_lock)` may be interrupted
by a signal, failing with `-ERESTARTSYS`; otherwise the read loop runs. -/
def kmldrv_read (lockInterrupted : Bool) (fifo : List Char) (count : Nat)
    (nonblock : Bool) (events : List WaitEvent) : ReadResult × List Char :=
  if lockInterrupted then (ReadResult.erestartsys, fifo)
  else readLoop count nonblock fifo events

/-- `kmldrv_open`: `atomic_inc_return`, and on the 0→1 transition arms the
timer with `mod_timer`. -/
def kmldrv_open (s : KmldrvState) : KmldrvState :=
  let c := s.open_cnt + 1
  let s1 := { s with open_cnt := c }
  if c = 1 then { s1 with timer_armed := true } else s1

/-- `kmldrv_release`: `atomic_dec_and_test` returns true exactly when the
decremented counter is 0; the source compares that result with 0, so the
body (`del_timer_sync`, `flush_workqueue`, `fast_buf_clear`) runs when the
decremented count is nonzero. `flush_workqueue` has no effect on the modelled
state (work items are modelled as separate transitions). -/
def kmldrv_release (s : KmldrvState) : KmldrvState :=
  let c := s.open_cnt - 1
  let s1 := { s with open_cnt := c }
  if ¬(c = 0) then
    fast_buf_clear { s1 with timer_armed := false }
  else s1

/-- C `snprintf(buf, size, ...)` semantics: at most `size - 1` characters are
written (plus a terminating NUL), and the return value is the length the
full formatted string would have had. -/
def snprintf_model (size : Nat) (formatted : List Char) : List Char × Int :=
  (formatted.take (size - 1), (formatted.length : Int))

/-- `kmldrv_state_show`: formats the three attribute characters as
`"%c %c %c\n"` through `snprintf` with a buffer bound of 6; returns the
written characters and the snprintf return value. -/
def kmldrv_state_show (d r e : Char) : List Char × Int :=
  snprintf_model 6 [d, ' ', r, ' ', e, '\n']

/-- One tick of the system as the reader of claim C7 sees it: the state
reached after a `timer_handler` fire. -/
def tickState (s : KmldrvState) : KmldrvState :=
  (timer_handler s).state

/-! ### Helper lemmas -/

/-- Writing mark `c` at a valid cell makes that cell read back as `c`. -/
theorem getD_set_self (l : List Char) (k : Nat) (c : Char) (h : k < l.length) :
    (l.set k c).getD k ' ' = c := by
  rw [List.getD_eq_getElem?_getD, List.getElem?_set_eq_of_lt c h]
  rfl

/-- A read loop entered with a non-empty fifo and a positive count returns at
once with `min count len` bytes. -/
theorem readLoop_nonempty (count : Nat) (nonblock : Bool) (fifo : List Char)
    (events : List WaitEvent) (hc : 0 < count) (hf : fifo ≠ []) :
    readLoop count nonblock fifo events =
      (ReadResult.ok (min count fifo.length), fifo.drop (min count fifo.length)) := by
  have hlen : 0 < fifo.length := List.length_pos.mpr hf
  have hn : 0 < min count fifo.length := lt_min hc hlen
  rw [readLoop.eq_def]
  simp only [hn, if_pos]

/-- `timer_handler` never touches the fifo when the display attribute is
`'0'`, and never touches the display attribute at all. -/
theorem tick_keeps_fifo (s : KmldrvState) (h : s.display = '0') :
    (tickState s).rx_fifo = s.rx_fifo ∧ (tickState s).display = '0' := by
  unfold tickState timer_handler
  by_cases hwin : check_win s.table = ' '
  · simp [hwin, h]
  · by_cases hend : s.endf = '0' <;> simp [hwin, hend, h]

/-- Iterated ticks keep the fifo unchanged while the display stays `'0'`. -/
theorem tick_iter_keeps_fifo (n : Nat) (s : KmldrvState) (h : s.display = '0') :
    (tickState^[n] s).rx_fifo = s.rx_fifo ∧ (tickState^[n] s).display = '0' := by
  induction n generalizing s with
  | zero => exact ⟨rfl, h⟩
  | succ n ih =>
    rw [Function.iterate_succ_apply]
    obtain ⟨h1, h2⟩ := tick_keeps_fifo s h
    obtain ⟨ih1, ih2⟩ := ih (tickState s) h2
    exact ⟨by rw [ih1, h1], ih2⟩

/-! ### Claim theorems -/

/-- C1: the reference-counted lifecycle of the source is inverted.
`atomic_dec_and_test` returns true exactly when the decremented count is 0,
but `kmldrv_release` compares that result with 0, so after one open the final
close leaves the timer armed (`open_cnt = 0` yet `timer_armed = true`) and
skips the drain (`fast_head` keeps its residue), while after two opens the
first close — count still positive — disarms the timer. -/
theorem kmldrv_release_inverted_refcount :
    (kmldrv_release (kmldrv_open initState)).open_cnt = 0 ∧
    (kmldrv_release (kmldrv_open initState)).timer_armed = true ∧
    (kmldrv_release (kmldrv_open { initState with fast_head := 7 })).fast_head = 7 ∧
    (kmldrv_release (kmldrv_open (kmldrv_open initState))).open_cnt = 1 ∧
    (kmldrv_release (kmldrv_open (kmldrv_open initState))).timer_armed = false :=
  ⟨rfl, rfl, rfl, rfl, rfl⟩

/-- C2 counterexample: with 4066 bytes already queued (and 30 free), pushing
the 38-byte snapshot inserts exactly 30 bytes — neither zero nor all of
`DRAWBUFFER_SIZE` — so a partial snapshot does enter the Export Queue. -/
theorem produce_board_partial_insert :
    (produce_board (List.replicate 4066 'x') (List.replicate DRAWBUFFER_SIZE 'b')).2.1 = 30 ∧
    (0 : Nat) < 30 ∧ (30 : Nat) < DRAWBUFFER_SIZE ∧
    (produce_board (List.replicate 4066 'x') (List.replicate DRAWBUFFER_SIZE 'b')).1.length =
      4066 + 30 := by
  refine ⟨?_, by decide, by decide, ?_⟩
  · show min (List.replicate DRAWBUFFER_SIZE 'b').length
        (PAGE_SIZE - (List.replicate 4066 'x').length) = 30
    rw [List.length_replicate, List.length_replicate]
    decide
  · show ((List.replicate 4066 'x') ++ (List.replicate DRAWBUFFER_SIZE 'b').take _).length =
        4066 + 30
    rw [List.length_append, List.length_take, List.length_replicate, List.length_replicate]
    decide

/-- C2 (amended): `produce_board` pushes the prefix of the snapshot that fits
(`min DRAWBUFFER_SIZE free` bytes), preserves the previously queued bytes,
drops only the excess, raises the rate-limited warning exactly on overflow,
and inserts the full snapshot iff it fits; no error is surfaced. -/
theorem produce_board_drops_excess (fifo draw : List Char)
    (hd : draw.length = DRAWBUFFER_SIZE) (hf : fifo.length ≤ PAGE_SIZE) :
    (produce_board fifo draw).1 = fifo ++ draw.take (produce_board fifo draw).2.1 ∧
    (produce_board fifo draw).2.1 = min DRAWBUFFER_SIZE (PAGE_SIZE - fifo.length) ∧
    (produce_board fifo draw).1.length = min (fifo.length + DRAWBUFFER_SIZE) PAGE_SIZE ∧
    fifo <+: (produce_board fifo draw).1 ∧
    ((produce_board fifo draw).2.2 = false ↔ fifo.length + DRAWBUFFER_SIZE ≤ PAGE_SIZE) ∧
    ((produce_board fifo draw).2.1 = DRAWBUFFER_SIZE ↔
      fifo.length + DRAWBUFFER_SIZE ≤ PAGE_SIZE) := by
  have h1 : (produce_board fifo draw).2.1 = min DRAWBUFFER_SIZE (PAGE_SIZE - fifo.length) := by
    show min draw.length (PAGE_SIZE - fifo.length) = _
    rw [hd]
  refine ⟨rfl, h1, ?_, ⟨draw.take _, rfl⟩, ?_, ?_⟩
  · show (fifo ++ draw.take (min draw.length (PAGE_SIZE - fifo.length))).length = _
    rw [List.length_append, List.length_take, hd]
    omega
  · show (decide (min draw.length (PAGE_SIZE - fifo.length) < draw.length) = false) ↔ _
    rw [hd]
    simp only [decide_eq_false_iff_not, not_lt]
    omega
  · rw [h1]
    omega

/-- C2 witness: the amended statement instantiated at an empty queue and a
38-byte snapshot, where the whole snapshot fits and no warning fires. -/
theorem produce_board_drops_excess_witness :
    (List.replicate DRAWBUFFER_SIZE 'b').length = DRAWBUFFER_SIZE ∧
    ([] : List Char).length ≤ PAGE_SIZE ∧
    ((produce_board [] (List.replicate DRAWBUFFER_SIZE 'b')).2.1 = DRAWBUFFER_SIZE ↔
      ([] : List Char).length + DRAWBUFFER_SIZE ≤ PAGE_SIZE) ∧
    ((produce_board [] (List.replicate DRAWBUFFER_SIZE 'b')).2.2 = false ↔
      ([] : List Char).length + DRAWBUFFER_SIZE ≤ PAGE_SIZE) :=
  ⟨by decide, by decide,
    (produce_board_drops_excess [] (List.replicate DRAWBUFFER_SIZE 'b')
      (by decide) (by decide)).2.2.2.2.2,
    (produce_board_drops_excess [] (List.replicate DRAWBUFFER_SIZE 'b')
      (by decide) (by decide)).2.2.2.2.1⟩

/-- C9: for any attribute characters, `kmldrv_state_show` writes exactly the
5 bytes `d ' ' r ' ' e` (the trailing newline is truncated by the 6-byte
snprintf bound) while returning 6, so the return value exceeds the number of
characters actually written. -/
theorem kmldrv_state_show_spec (d r e : Char) :
    (kmldrv_state_show d r e).1 = [d, ' ', r, ' ', e] ∧
    (kmldrv_state_show d r e).1.length = 5 ∧
    (kmldrv_state_show d r e).2 = 6 ∧
    ((kmldrv_state_show d r e).1.length : Int) < (kmldrv_state_show d r e).2 :=
  ⟨rfl, rfl, rfl, by show ((5 : Nat) : Int) < 6; decide⟩

/-- C3 counterexample: with a non-empty queue but `max_len = 0`, the
non-blocking read does not return a positive byte count — `kfifo_to_user`
copies 0 bytes, so the loop falls through to the `O_NONBLOCK` branch and the
call fails with `-EAGAIN`, contradicting the claim's unconditional
`0 < n ≤ max_len` for a non-empty queue. -/
theorem kmldrv_read_zero_maxlen :
    kmldrv_read false ['A'] 0 true [] = (ReadResult.eagain, ['A']) ∧
    (['A'] : List Char) ≠ [] :=
  ⟨rfl, by decide⟩

/-- C3 (amended, assuming `0 < max_len`): an interrupted reader-lock
acquisition fails with `-ERESTARTSYS`; a non-empty queue returns immediately
with `min count len` bytes, a count that is positive and at most `max_len`;
an empty queue fails with `-EAGAIN` when non-blocking; an empty queue with a
blocking caller sleeps, and then a signal fails the call with `-ERESTARTSYS`
while a producer wake-up with fresh data makes the retry return those
bytes. -/
theorem kmldrv_read_spec (fifo d : List Char) (count : Nat) (nonblock : Bool)
    (events rest : List WaitEvent) (hc : 0 < count) :
    kmldrv_read true fifo count nonblock events = (ReadResult.erestartsys, fifo) ∧
    (fifo ≠ [] →
      kmldrv_read false fifo count nonblock events =
        (ReadResult.ok (min count fifo.length), fifo.drop (min count fifo.length)) ∧
      0 < min count fifo.length ∧ min count fifo.length ≤ count) ∧
    kmldrv_read false [] count true events = (ReadResult.eagain, []) ∧
    kmldrv_read false [] count false (WaitEvent.signal :: rest) = (ReadResult.erestartsys, []) ∧
    (d ≠ [] →
      kmldrv_read false [] count false (WaitEvent.wake d :: rest) =
        (ReadResult.ok (min count d.length), d.drop (min count d.length))) := by
  have hzero : min count ([] : List Char).length = 0 := by simp
  refine ⟨by simp [kmldrv_read], ?_, ?_, ?_, ?_⟩
  · intro hne
    exact ⟨by simp [kmldrv_read, readLoop_nonempty count nonblock fifo events hc hne],
      lt_min hc (List.length_pos.mpr hne), min_le_left _ _⟩
  · rw [kmldrv_read, if_neg (by simp), readLoop.eq_def]
    simp
  · rw [kmldrv_read, if_neg (by simp), readLoop.eq_def]
    simp
  · intro hd
    rw [kmldrv_read, if_neg (by simp), readLoop.eq_def]
    simp only [List.length_nil, Nat.min_zero, lt_irrefl, if_false, Bool.false_eq_true,
      List.nil_append]
    rw [readLoop_nonempty count false d rest hc hd]

/-- C3 witness: the amended read contract at `max_len = 1`, a two-byte
queue, and a one-byte wake-up. -/
theorem kmldrv_read_spec_witness :
    (0 : Nat) < 1 ∧
    kmldrv_read true ['A', 'B'] 1 false [] = (ReadResult.erestartsys, ['A', 'B']) ∧
    kmldrv_read false ['A', 'B'] 1 false [] =
      (ReadResult.ok (min 1 (['A', 'B'] : List Char).length),
        (['A', 'B'] : List Char).drop (min 1 (['A', 'B'] : List Char).length)) ∧
    kmldrv_read false [] 1 true [] = (ReadResult.eagain, []) ∧
    kmldrv_read false [] 1 false [WaitEvent.signal] = (ReadResult.erestartsys, []) ∧
    kmldrv_read false [] 1 false [WaitEvent.wake ['C']] =
      (ReadResult.ok (min 1 (['C'] : List Char).length),
        (['C'] : List Char).drop (min 1 (['C'] : List Char).length)) := by
  obtain ⟨h1, h2, h3, h4, h5⟩ :=
    kmldrv_read_spec ['A', 'B'] ['C'] 1 false [] [] (by decide)
  exact ⟨by decide, h1, (h2 (by decide)).1, h3, h4, h5 (by decide)⟩

/-- C4: each move task writes its side's mark at the engine's chosen cell
when one is returned, leaves the board unchanged on a `-1` "no legal move"
result, in both cases hands the turn to the other side and re-raises the
move-pending flag, and consequently the dispatcher's next move enqueue is
always the opposite side. -/
theorem ai_work_spec (s : KmldrvState) (ma mb : Int) :
    (ai_one_work_func s ma).turn = 'X' ∧
    (ai_one_work_func s ma).finish = true ∧
    (ma = -1 → (ai_one_work_func s ma).table = s.table) ∧
    (ma ≠ -1 → (ai_one_work_func s ma).table = s.table.set ma.toNat 'O') ∧
    (ma ≠ -1 → ma.toNat < s.table.length →
      (ai_one_work_func s ma).table.getD ma.toNat ' ' = 'O') ∧
    (ai_two_work_func s mb).turn = 'O' ∧
    (ai_two_work_func s mb).finish = true ∧
    (mb = -1 → (ai_two_work_func s mb).table = s.table) ∧
    (mb ≠ -1 → (ai_two_work_func s mb).table = s.table.set mb.toNat 'X') ∧
    (mb ≠ -1 → mb.toNat < s.table.length →
      (ai_two_work_func s mb).table.getD mb.toNat ' ' = 'X') ∧
    (game_tasklet_func (ai_one_work_func s ma)).2 =
      [Work.ai_two, Work.load, Work.drawboard] ∧
    (game_tasklet_func (ai_two_work_func s mb)).2 =
      [Work.ai_one, Work.load, Work.drawboard] := by
  refine ⟨rfl, rfl, ?_, ?_, ?_, rfl, rfl, ?_, ?_, ?_, rfl, rfl⟩
  · intro h; simp [ai_one_work_func, h]
  · intro h; simp [ai_one_work_func, h]
  · intro h hlt
    have : (ai_one_work_func s ma).table = s.table.set ma.toNat 'O' := by
      simp [ai_one_work_func, h]
    rw [this]
    exact getD_set_self s.table ma.toNat 'O' hlt
  · intro h; simp [ai_two_work_func, h]
  · intro h; simp [ai_two_work_func, h]
  · intro h hlt
    have : (ai_two_work_func s mb).table = s.table.set mb.toNat 'X' := by
      simp [ai_two_work_func, h]
    rw [this]
    exact getD_set_self s.table mb.toNat 'X' hlt

/-- C4 witness: side-A plays cell 4 on the fresh board (`'O'` lands there,
turn goes to `'X'`), side-B reports no legal move (board untouched, turn
back to `'O'`), and the dispatcher alternates accordingly. -/
theorem ai_work_spec_witness :
    (ai_one_work_func initState 4).turn = 'X' ∧
    (ai_one_work_func initState 4).table = initState.table.set ((4 : Int)).toNat 'O' ∧
    (ai_one_work_func initState 4).table.getD ((4 : Int)).toNat ' ' = 'O' ∧
    (ai_two_work_func initState (-1)).table = initState.table ∧
    (game_tasklet_func (ai_one_work_func initState 4)).2 =
      [Work.ai_two, Work.load, Work.drawboard] := by
  obtain ⟨h1, h2, h3, h4, h5, h6, h7, h8, h9, h10, h11, h12⟩ :=
    ai_work_spec initState 4 (-1)
  exact ⟨h1, h4 (by decide), h5 (by decide) (by decide), h8 rfl, h11⟩

/-- C5: on every dispatcher run, a pending side-A move clears the flag and
queues the side-A work item, a pending side-B move queues the side-B work
item, the load-average and render/export work items are queued in every
case, and the dispatcher itself leaves the board, turn, fifo, open count and
timer untouched. -/
theorem game_tasklet_spec (s : KmldrvState) :
    (s.finish = true → s.turn = 'O' →
      game_tasklet_func s =
        ({ s with finish := false }, [Work.ai_one, Work.load, Work.drawboard])) ∧
    (s.finish = true → s.turn = 'X' →
      game_tasklet_func s =
        ({ s with finish := false }, [Work.ai_two, Work.load, Work.drawboard])) ∧
    Work.load ∈ (game_tasklet_func s).2 ∧
    Work.drawboard ∈ (game_tasklet_func s).2 ∧
    (game_tasklet_func s).1.table = s.table ∧
    (game_tasklet_func s).1.turn = s.turn ∧
    (game_tasklet_func s).1.rx_fifo = s.rx_fifo ∧
    (game_tasklet_func s).1.open_cnt = s.open_cnt ∧
    (game_tasklet_func s).1.timer_armed = s.timer_armed := by
  by_cases hf : s.finish = true
  · by_cases ht : s.turn = 'O'
    · simp [game_tasklet_func, hf, ht]
    · by_cases ht2 : s.turn = 'X' <;> simp [game_tasklet_func, hf, ht, ht2]
  · simp [game_tasklet_func, hf]

/-- C5 witness: the dispatcher on the freshly initialised state (pending
side-A move) and its frame conditions. -/
theorem game_tasklet_spec_witness :
    game_tasklet_func initState =
      ({ initState with finish := false }, [Work.ai_one, Work.load, Work.drawboard]) ∧
    Work.load ∈ (game_tasklet_func initState).2 ∧
    Work.drawboard ∈ (game_tasklet_func initState).2 ∧
    (game_tasklet_func initState).1.table = initState.table := by
  obtain ⟨h1, h2, h3, h4, h5, h6, h7, h8, h9⟩ := game_tasklet_spec initState
  exact ⟨h1 rfl rfl, h3, h4, h5⟩

/-- C6: on a non-terminal board the timer handler schedules the bottom half
and re-arms; on a terminal board it draws and exports a final snapshot
exactly when the display attribute is `'1'`, and it resets the board to all
spaces and re-arms iff the end attribute is `'0'`, otherwise leaving the
timer disarmed and the board as it was. -/
theorem timer_handler_spec (s : KmldrvState) :
    (check_win s.table = ' ' →
      timer_handler s = ⟨{ s with timer_armed := true }, true, false⟩) ∧
    (check_win s.table ≠ ' ' →
      (timer_handler s).tasklet_scheduled = false ∧
      ((timer_handler s).final_draw = true ↔ s.display = '1') ∧
      (s.display = '1' →
        (timer_handler s).state.rx_fifo =
          (produce_board s.rx_fifo (draw_board s.table)).1 ∧
        (timer_handler s).state.draw_buffer = draw_board s.table) ∧
      (s.display ≠ '1' → (timer_handler s).state.rx_fifo = s.rx_fifo) ∧
      (s.endf = '0' →
        (timer_handler s).state.table = List.replicate N_GRIDS ' ' ∧
        (timer_handler s).state.timer_armed = true) ∧
      (s.endf ≠ '0' →
        (timer_handler s).state.timer_armed = false ∧
        (timer_handler s).state.table = s.table)) := by
  by_cases hwin : check_win s.table = ' '
  · refine ⟨fun _ => ?_, fun h => absurd hwin h⟩
    simp [timer_handler, hwin]
  · refine ⟨fun h => absurd h hwin, fun _ => ?_⟩
    by_cases hd : s.display = '1' <;> by_cases he : s.endf = '0' <;>
      simp [timer_handler, hwin, hd, he]

/-- C6 witness: the fresh board is non-terminal (tasklet scheduled, timer
re-armed); a board with a completed `'O'` diagonal is terminal and, with
display `'1'` and end `'0'`, draws the final snapshot, resets the board and
re-arms. -/
theorem timer_handler_spec_witness :
    check_win initState.table = ' ' ∧
    timer_handler initState = ⟨{ initState with timer_armed := true }, true, false⟩ ∧
    check_win ({ initState with
      table := ['O', 'X', 'X', 'X', 'O', 'O', 'O', 'X', 'O'] } : KmldrvState).table ≠ ' ' ∧
    (timer_handler { initState with
      table := ['O', 'X', 'X', 'X', 'O', 'O', 'O', 'X', 'O'] }).state.table =
        List.replicate N_GRIDS ' ' ∧
    (timer_handler { initState with
      table := ['O', 'X', 'X', 'X', 'O', 'O', 'O', 'X', 'O'] }).state.timer_armed = true ∧
    ((timer_handler { initState with
      table := ['O', 'X', 'X', 'X', 'O', 'O', 'O', 'X', 'O'] }).final_draw = true ↔
      ({ initState with
        table := ['O', 'X', 'X', 'X', 'O', 'O', 'O', 'X', 'O'] } : KmldrvState).display = '1') := by
  obtain ⟨hA, _⟩ := timer_handler_spec initState
  obtain ⟨h1, h2, h3, h4, h5, h6⟩ :=
    (timer_handler_spec { initState with
      table := ['O', 'X', 'X', 'X', 'O', 'O', 'O', 'X', 'O'] }).2 (by decide)
  exact ⟨by decide, hA (by decide), by decide, (h5 rfl).1, (h5 rfl).2, h2⟩

/-- C7: while the display attribute is `'0'`, the render/export work item
returns without touching any state and any number of timer ticks leaves the
Export Queue contents unchanged (including the terminal-board final
render). -/
theorem display_off_no_export (s : KmldrvState) (n : Nat) (h : s.display = '0') :
    drawboard_work_func s = s ∧
    (timer_handler s).state.rx_fifo = s.rx_fifo ∧
    (tickState^[n] s).rx_fifo = s.rx_fifo := by
  refine ⟨by simp [drawboard_work_func, h], ?_, (tick_iter_keeps_fifo n s h).1⟩
  exact (tick_keeps_fifo s h).1

/-- C7 witness: with display `'0'` on the fresh state, the render work item
is a no-op and three ticks leave the fifo unchanged. -/
theorem display_off_no_export_witness :
    ({ initState with display := '0' } : KmldrvState).display = '0' ∧
    drawboard_work_func { initState with display := '0' } =
      { initState with display := '0' } ∧
    (tickState^[3] { initState with display := '0' }).rx_fifo =
      ({ initState with display := '0' } : KmldrvState).rx_fifo := by
  obtain ⟨h1, h2, h3⟩ := display_off_no_export { initState with display := '0' } 3 rfl
  exact ⟨rfl, h1, h3⟩

/-- C8: rendering any 9-cell board yields the fixed 38-byte snapshot — two
leading newlines, cells separated by `'|'` inside each row, rows separated
by 5-dash lines — and reading the grid positions back recovers the nine
cells exactly (render-then-parse is the identity on boards). -/
theorem draw_board_roundtrip :
    ∀ t : List Char, t.length = N_GRIDS →
      parseBoard (draw_board t) = t ∧
      (draw_board t).length = DRAWBUFFER_SIZE ∧
      (draw_board t).take 2 = ['\n', '\n'] ∧
      (draw_board t).getD 3 ' ' = '|' ∧ (draw_board t).getD 5 ' ' = '|' ∧
      (draw_board t).getD 15 ' ' = '|' ∧ (draw_board t).getD 17 ' ' = '|' ∧
      (draw_board t).getD 27 ' ' = '|' ∧ (draw_board t).getD 29 ' ' = '|' ∧
      ((draw_board t).drop 8).take 5 = List.replicate 5 '-' ∧
      ((draw_board t).drop 20).take 5 = List.replicate 5 '-' ∧
      ((draw_board t).drop 32).take 5 = List.replicate 5 '-'
  | [a, b, c, d, e, f, g, h, i], _ =>
      ⟨rfl, rfl, rfl, rfl, rfl, rfl, rfl, rfl, rfl, rfl, rfl, rfl⟩
  | [], hlen => by simp [N_GRIDS, BOARD_SIZE] at hlen
  | [_], hlen => by simp [N_GRIDS, BOARD_SIZE] at hlen
  | [_, _], hlen => by simp [N_GRIDS, BOARD_SIZE] at hlen
  | [_, _, _], hlen => by simp [N_GRIDS, BOARD_SIZE] at hlen
  | [_, _, _, _], hlen => by simp [N_GRIDS, BOARD_SIZE] at hlen
  | [_, _, _, _, _], hlen => by simp [N_GRIDS, BOARD_SIZE] at hlen
  | [_, _, _, _, _, _], hlen => by simp [N_GRIDS, BOARD_SIZE] at hlen
  | [_, _, _, _, _, _, _], hlen => by simp [N_GRIDS, BOARD_SIZE] at hlen
  | [_, _, _, _, _, _, _, _], hlen => by simp [N_GRIDS, BOARD_SIZE] at hlen
  | _ :: _ :: _ :: _ :: _ :: _ :: _ :: _ :: _ :: _ :: _, hlen => by
      simp [N_GRIDS, BOARD_SIZE] at hlen

/-- C8 witness: the round trip on a full board with an `'O'` diagonal
win. -/
theorem draw_board_roundtrip_witness :
    (['O', 'X', 'X', 'X', 'O', 'O', 'O', 'X', 'O'] : List Char).length = N_GRIDS ∧
    parseBoard (draw_board ['O', 'X', 'X', 'X', 'O', 'O', 'O', 'X', 'O']) =
      ['O', 'X', 'X', 'X', 'O', 'O', 'O', 'X', 'O'] ∧
    (draw_board ['O', 'X', 'X', 'X', 'O', 'O', 'O', 'X', 'O']).length = DRAWBUFFER_SIZE :=
  ⟨by decide,
    (draw_board_roundtrip ['O', 'X', 'X', 'X', 'O', 'O', 'O', 'X', 'O'] (by decide)).1,
    (draw_board_roundtrip ['O', 'X', 'X', 'X', 'O', 'O', 'O', 'X', 'O'] (by decide)).2.1⟩

/-- C10: module initialisation leaves an all-space board with `turn = 'O'`
and the move-pending flag set, so the first move work item the dispatcher
ever queues is side-A; and the terminal-board auto-restart reset writes only
the board, leaving the turn indicator and the move-pending flag exactly as
they were. -/
theorem init_and_restart_spec :
    initState.table = List.replicate N_GRIDS ' ' ∧
    initState.turn = 'O' ∧
    initState.finish = true ∧
    (game_tasklet_func initState).2 = [Work.ai_one, Work.load, Work.drawboard] ∧
    ∀ s : KmldrvState, check_win s.table ≠ ' ' → s.endf = '0' →
      (timer_handler s).state.table = List.replicate N_GRIDS ' ' ∧
      (timer_handler s).state.turn = s.turn ∧
      (timer_handler s).state.finish = s.finish := by
  refine ⟨rfl, rfl, rfl, rfl, fun s hw he => ?_⟩
  by_cases hd : s.display = '1' <;> simp [timer_handler, hw, he, hd]

/-- C10 witness: restarting from a terminal board reached with side-B to
move keeps `turn = 'X'` while the board is wiped. -/
theorem init_and_restart_spec_witness :
    check_win ({ initState with
      table := ['O', 'X', 'X', 'X', 'O', 'O', 'O', 'X', 'O'],
      turn := 'X' } : KmldrvState).table ≠ ' ' ∧
    (timer_handler { initState with
      table := ['O', 'X', 'X', 'X', 'O', 'O', 'O', 'X', 'O'], turn := 'X' }).state.turn = 'X' ∧
    (timer_handler { initState with
      table := ['O', 'X', 'X', 'X', 'O', 'O', 'O', 'X', 'O'], turn := 'X' }).state.table =
      List.replicate N_GRIDS ' ' := by
  obtain ⟨_, _, _, _, h5⟩ := init_and_restart_spec
  obtain ⟨ht, htu, htf⟩ := h5 { initState with
    table := ['O', 'X', 'X', 'X', 'O', 'O', 'O', 'X', 'O'], turn := 'X' } (by decide) rfl
  exact ⟨by decide, htu, ht⟩

end KMLdrv
